import Mathlib

/- Verification of the Stopwatch timing container of stopwatch.h.

   Modelling conventions:
   time points of the underlying clock are integer tick counts; the
   measurement vector is a list of such ticks in recording order.
   duration_cast into the configured Duration unit is truncated division by
   k, the number of clock ticks that make up one duration unit.
   Raw pointers into the measurement buffer (used by the iterator) are
   integer addresses counted in units of one time_point element; distinct
   containers have distinct buffer addresses. -/

namespace StopwatchModel

/-- Failures of the stopwatch API: std::out_of_range thrown by vector::at
inside the checked accessors, and the std::runtime_error with message
"Iterator base mismatch." thrown by iterator subtraction. -/
inductive SwError where
  | outOfRange
  | mismatchedOrigin
  deriving DecidableEq, Repr

/-- State of a Stopwatch: the recorded time_point measurements and the
sw_mode flag. -/
structure Stopwatch where
  measurements : List Int
  sw_mode : Bool
  deriving DecidableEq, Repr

/-- Work with splits between recorded times. -/
def SPLIT_MODE : Bool := true

/-- Work with total elapsed time periods. -/
def ELAPSE_MODE : Bool := false

/-- Stopwatch constructor: empty measurement list, given mode. The capacity
reservation of the C++ constructors has no observable effect on values. -/
def mkStopwatch (mode_in : Bool) : Stopwatch := ⟨[], mode_in⟩

/-- Stopwatch::empty, true when fewer than two measurements are recorded. -/
def empty (sw : Stopwatch) : Bool := sw.measurements.length < 2

/-- Stopwatch::size, the number of recorded durations: one less than the
measurement count when there is more than one measurement, else zero. -/
def size (sw : Stopwatch) : Nat :=
  if sw.measurements.length > 1 then sw.measurements.length - 1 else 0

/-- Stopwatch::mode getter. -/
def getMode (sw : Stopwatch) : Bool := sw.sw_mode

/-- Stopwatch::mode setter. -/
def setMode (sw : Stopwatch) (mode_in : Bool) : Stopwatch :=
  ⟨sw.measurements, mode_in⟩

/-- Stopwatch::record, appending the current clock reading t. -/
def record (sw : Stopwatch) (t : Int) : Stopwatch :=
  ⟨sw.measurements ++ [t], sw.sw_mode⟩

/-- Stopwatch::clear, removing all measurements. -/
def clear (sw : Stopwatch) : Stopwatch := ⟨[], sw.sw_mode⟩

/-- duration_cast of a tick difference d into the Duration unit of k clock
ticks per unit: integer division with truncation toward zero. -/
def durCast (k : Nat) (d : Int) : Int := Int.tdiv d k

/-- Stopwatch::operator[] with an unsigned index. The end point is the
bound-checked measurements.at(index + 1); the start point is the unchecked
measurements[index] in split mode, or measurements.front() in elapse mode;
the result is the duration_cast of their difference. -/
def atIdx (k : Nat) (sw : Stopwatch) (index : Nat) : Except SwError Int :=
  match sw.measurements[index + 1]? with
  | none => Except.error SwError.outOfRange
  | some fin =>
      let st := if sw.sw_mode = SPLIT_MODE then sw.measurements.getD index 0
                else sw.measurements.headD 0
      Except.ok (durCast k (fin - st))

/-- Stopwatch::data with no argument: the measurement list itself. -/
def data (sw : Stopwatch) : List Int := sw.measurements

/-- Stopwatch::data with an index: bound-checked access into the
measurements via vector::at. -/
def dataAt (sw : Stopwatch) (index : Nat) : Except SwError Int :=
  match sw.measurements[index]? with
  | none => Except.error SwError.outOfRange
  | some t => Except.ok t

/-- Stopwatch::data_size, the measurement count. -/
def data_size (sw : Stopwatch) : Nat := sw.measurements.length

/-- Stopwatch::iterator: the base pointer to the first element of the
measurement buffer, the current pointer, and the iterator's own mode. -/
structure SwIterator where
  base : Int
  ptr : Int
  iter_mode : Bool
  deriving DecidableEq, Repr

/-- iterator::operator==, true when both pointer and base agree. -/
def iterEq (a b : SwIterator) : Bool :=
  a.ptr == b.ptr && a.base == b.base

/-- iterator::operator!=, true when pointer or base differ. -/
def iterNe (a b : SwIterator) : Bool :=
  a.ptr != b.ptr || a.base != b.base

/-- iterator::operator<, comparing pointers, additionally requiring equal
base. -/
def iterLt (a b : SwIterator) : Bool :=
  decide (b.ptr - a.ptr > 0) && a.base == b.base

/-- iterator::operator<=, comparing pointers, additionally requiring equal
base. -/
def iterLe (a b : SwIterator) : Bool :=
  decide (b.ptr - a.ptr ≥ 0) && a.base == b.base

/-- iterator::operator>, comparing pointers, additionally requiring equal
base. -/
def iterGt (a b : SwIterator) : Bool :=
  decide (a.ptr - b.ptr > 0) && a.base == b.base

/-- iterator::operator>=, exactly as written in the source: it compares the
left pointer with the RIGHT OPERAND'S BASE, not with the right pointer. -/
def iterGe (a b : SwIterator) : Bool :=
  decide (a.ptr - b.base ≥ 0) && a.base == b.base

/-- iterator::operator+ with a signed distance. -/
def iterAdd (a : SwIterator) (dist : Int) : SwIterator :=
  ⟨a.base, a.ptr + dist, a.iter_mode⟩

/-- iterator::operator- with a signed distance. -/
def iterSubDist (a : SwIterator) (dist : Int) : SwIterator :=
  ⟨a.base, a.ptr - dist, a.iter_mode⟩

/-- iterator::operator- between two iterators: throws when the bases differ,
otherwise yields the signed pointer difference. -/
def iterDist (a b : SwIterator) : Except SwError Int :=
  if a.base ≠ b.base then Except.error SwError.mismatchedOrigin
  else Except.ok (a.ptr - b.ptr)

/-- Stopwatch::begin, given addr, the address of the measurement buffer:
base and pointer both sit at the buffer start, mode copied from the
stopwatch. -/
def beginIter (sw : Stopwatch) (addr : Int) : SwIterator :=
  ⟨addr, addr, sw.sw_mode⟩

/-- Stopwatch::end: the pointer is the address of the last element, namely
std::prev of the vector end, or the buffer start when the vector is
empty. -/
def endIter (sw : Stopwatch) (addr : Int) : SwIterator :=
  if sw.measurements.isEmpty then ⟨addr, addr, sw.sw_mode⟩
  else ⟨addr, addr + ((sw.measurements.length - 1 : Nat) : Int), sw.sw_mode⟩

/-- std::set_union on two ranges, exactly as the standard algorithm walks
them: while both are nonempty, take the smaller head (the second range's
head only when it is strictly smaller), and drop the second range's head as
well whenever neither head is strictly smaller than the other; remainders
are copied through. -/
def setUnion : List Int → List Int → List Int
  | [], l2 => l2
  | a :: l1, [] => a :: l1
  | a :: l1, b :: l2 =>
    if b < a then b :: setUnion (a :: l1) l2
    else if a < b then a :: setUnion l1 (b :: l2)
    else a :: setUnion l1 l2
termination_by l1 l2 => l1.length + l2.length

/-- Stopwatch::operator+=: the receiver's measurements become the
std::set_union of the receiver's and the argument's measurements; the
receiver's mode is untouched and the argument is const. -/
def mergeInto (sw other : Stopwatch) : Stopwatch :=
  ⟨setUnion sw.measurements other.measurements, sw.sw_mode⟩

/-- Stopwatch::operator+: copies the receiver and applies operator+= with
the argument, leaving both operands untouched. -/
def mergeWith (sw other : Stopwatch) : Stopwatch := mergeInto sw other

/- Helper lemmas about the checked accessor and the set-union merge. -/

/-- The checked raw accessor succeeds with x exactly when position i of the
measurement list holds x. -/
theorem dataAt_eq_ok_iff (sw : Stopwatch) (i : Nat) (x : Int) :
    dataAt sw i = Except.ok x ↔ sw.measurements[i]? = some x := by
  unfold dataAt
  split <;> rename_i heq <;> simp [heq]

/-- Membership in the set-union of two lists is membership in either. -/
theorem mem_setUnion (x : Int) (l1 l2 : List Int) :
    x ∈ setUnion l1 l2 ↔ x ∈ l1 ∨ x ∈ l2 := by
  induction l1, l2 using setUnion.induct with
  | case1 l2 => simp [setUnion]
  | case2 a l1 => simp [setUnion]
  | case3 a l1 b l2 h ih =>
      simp only [setUnion, if_pos h, List.mem_cons] at ih ⊢
      tauto
  | case4 a l1 b l2 h1 h2 ih =>
      simp only [setUnion, if_neg h1, if_pos h2, List.mem_cons] at ih ⊢
      tauto
  | case5 a l1 b l2 h1 h2 ih =>
      have hab : a = b := le_antisymm (not_lt.mp h1) (not_lt.mp h2)
      subst hab
      simp only [setUnion, if_neg h1, if_neg h2, List.mem_cons] at ih ⊢
      tauto

/-- The set-union of two lists is no longer than the two together. -/
theorem length_setUnion_le (l1 l2 : List Int) :
    (setUnion l1 l2).length ≤ l1.length + l2.length := by
  induction l1, l2 using setUnion.induct with
  | case1 l2 => simp [setUnion]
  | case2 a l1 => simp [setUnion]
  | case3 a l1 b l2 h ih =>
      simp only [setUnion, if_pos h, List.length_cons] at ih ⊢
      omega
  | case4 a l1 b l2 h1 h2 ih =>
      simp only [setUnion, if_neg h1, if_pos h2, List.length_cons] at ih ⊢
      omega
  | case5 a l1 b l2 h1 h2 ih =>
      simp only [setUnion, if_neg h1, if_neg h2, List.length_cons] at ih ⊢
      omega

/-- The set-union of two strictly sorted lists is strictly sorted. -/
theorem sorted_setUnion (l1 l2 : List Int) :
    l1.Sorted (· < ·) → l2.Sorted (· < ·) →
      (setUnion l1 l2).Sorted (· < ·) := by
  induction l1, l2 using setUnion.induct with
  | case1 l2 => intro _ h2; simpa [setUnion] using h2
  | case2 a l1 => intro h1 _; simpa [setUnion] using h1
  | case3 a l1 b l2 h ih =>
      intro h1 h2
      rw [List.sorted_cons] at h2
      simp only [setUnion, if_pos h]
      rw [List.sorted_cons]
      refine ⟨?_, ih h1 h2.2⟩
      intro y hy
      rcases (mem_setUnion y _ _).mp hy with hyA | hyB
      · rcases List.mem_cons.mp hyA with rfl | hyl
        · exact h
        · exact h.trans (List.rel_of_sorted_cons h1 _ hyl)
      · exact h2.1 y hyB
  | case4 a l1 b l2 hba hab ih =>
      intro h1 h2
      rw [List.sorted_cons] at h1
      simp only [setUnion, if_neg hba, if_pos hab]
      rw [List.sorted_cons]
      refine ⟨?_, ih h1.2 h2⟩
      intro y hy
      rcases (mem_setUnion y _ _).mp hy with hyA | hyB
      · exact h1.1 y hyA
      · rcases List.mem_cons.mp hyB with rfl | hyl
        · exact hab
        · exact hab.trans (List.rel_of_sorted_cons h2 _ hyl)
  | case5 a l1 b l2 hba hab ih =>
      intro h1 h2
      have hab2 : a = b := le_antisymm (not_lt.mp hba) (not_lt.mp hab)
      rw [List.sorted_cons] at h1 h2
      simp only [setUnion, if_neg hba, if_neg hab]
      rw [List.sorted_cons]
      refine ⟨?_, ih h1.2 h2.2⟩
      intro y hy
      rcases (mem_setUnion y _ _).mp hy with hyA | hyB
      · exact h1.1 y hyA
      · exact hab2 ▸ h2.1 y hyB

/-- Two strictly sorted integer lists with the same members are equal. -/
theorem sorted_lt_eq (l m : List Int) (hl : l.Sorted (· < ·))
    (hm : m.Sorted (· < ·)) (hmem : ∀ x, x ∈ l ↔ x ∈ m) : l = m := by
  haveI : IsAntisymm Int (· < ·) :=
    ⟨fun a b hab hba => absurd hba (not_lt.mpr hab.le)⟩
  exact List.eq_of_perm_of_sorted
    ((List.perm_ext_iff_of_nodup hl.nodup hm.nodup).mpr hmem) hl hm

/- Claim theorems. -/

/-- C9: for every stopwatch state, the duration count equals
max(snapshotCount - 1, 0), and empty holds exactly when fewer than two
measurements are recorded, which is exactly when the duration count is
zero. -/
theorem size_empty_invariant (sw : Stopwatch) :
    ((size sw : Int) = max ((data_size sw : Int) - 1) 0) ∧
    (empty sw = true ↔ data_size sw < 2) ∧
    (empty sw = true ↔ size sw = 0) := by
  unfold size empty data_size
  refine ⟨?_, ?_, ?_⟩
  · split <;> omega
  · simp
  · simp only [decide_eq_true_eq]
    split <;> omega

/-- C1: for a valid duration index, at returns the truncated conversion of
the difference between the checked snapshots at index and index + 1 in
split mode, and between the checked snapshots at 0 and index + 1 in elapse
mode. -/
theorem at_split_elapse (k : Nat) (sw : Stopwatch) (index : Nat)
    (a b z : Int) (h : index < size sw)
    (ha : dataAt sw index = Except.ok a)
    (hb : dataAt sw (index + 1) = Except.ok b)
    (hz : dataAt sw 0 = Except.ok z) :
    (sw.sw_mode = SPLIT_MODE →
      atIdx k sw index = Except.ok (Int.tdiv (b - a) k)) ∧
    (sw.sw_mode = ELAPSE_MODE →
      atIdx k sw index = Except.ok (Int.tdiv (b - z) k)) := by
  have ha2 := (dataAt_eq_ok_iff sw index a).mp ha
  have hb2 := (dataAt_eq_ok_iff sw (index + 1) b).mp hb
  have hz2 := (dataAt_eq_ok_iff sw 0 z).mp hz
  have hgd : sw.measurements.getD index 0 = a := by
    rw [List.getD_eq_getElem?_getD, ha2]; rfl
  have hhd : sw.measurements.headD 0 = z := by
    rw [List.headD_eq_head?, List.head?_eq_getElem?, hz2]; rfl
  refine ⟨fun hm => ?_, fun hm => ?_⟩
  · have hc : sw.sw_mode = SPLIT_MODE := hm
    simp only [atIdx, hb2, hc, if_pos rfl, hgd, durCast]
    simp [hgd]
  · have hc : ¬ (sw.sw_mode = SPLIT_MODE) := by
      rw [hm]; unfold ELAPSE_MODE SPLIT_MODE; simp
    simp only [atIdx, hb2, if_neg hc, hhd, durCast]

/-- C1 witness: snapshots at ticks 0, 10, 25 with one tick per duration
unit give a split at index 1 of 15 and an elapsed value at index 1 of
25. -/
theorem at_split_elapse_witness :
    atIdx 1 ⟨[0, 10, 25], SPLIT_MODE⟩ 1 = Except.ok (Int.tdiv (25 - 10) 1) ∧
    atIdx 1 ⟨[0, 10, 25], ELAPSE_MODE⟩ 1 = Except.ok (Int.tdiv (25 - 0) 1) :=
  ⟨(at_split_elapse 1 ⟨[0, 10, 25], SPLIT_MODE⟩ 1 10 25 0
      (by decide) rfl rfl rfl).1 rfl,
   (at_split_elapse 1 ⟨[0, 10, 25], ELAPSE_MODE⟩ 1 10 25 0
      (by decide) rfl rfl rfl).2 rfl⟩

/-- C3: iterator subtraction fails with MismatchedOrigin exactly when the
two base references differ and otherwise returns the signed pointer gap; in
particular it fails on begin iterators of stopwatches whose buffers sit at
distinct addresses. -/
theorem iter_dist_origin (a b : SwIterator) :
    (a.base ≠ b.base →
      iterDist a b = Except.error SwError.mismatchedOrigin) ∧
    (a.base = b.base → iterDist a b = Except.ok (a.ptr - b.ptr)) ∧
    (∀ sw1 sw2 : Stopwatch, ∀ a1 a2 : Int, a1 ≠ a2 →
      iterDist (beginIter sw1 a1) (beginIter sw2 a2) =
        Except.error SwError.mismatchedOrigin) := by
  refine ⟨fun h => ?_, fun h => ?_, fun sw1 sw2 a1 a2 h => ?_⟩
  · simp [iterDist, h]
  · simp [iterDist, h]
  · simp [iterDist, beginIter, h]

/-- C3 witness: subtraction across bases 0 and 1 fails, subtraction with
shared base 0 yields the cursor gap 5 - 2. -/
theorem iter_dist_origin_witness :
    iterDist ⟨0, 3, true⟩ ⟨1, 3, true⟩ =
      Except.error SwError.mismatchedOrigin ∧
    iterDist ⟨0, 5, true⟩ ⟨0, 2, false⟩ = Except.ok (5 - 2) :=
  ⟨(iter_dist_origin ⟨0, 3, true⟩ ⟨1, 3, true⟩).1 (by decide),
   (iter_dist_origin ⟨0, 5, true⟩ ⟨0, 2, false⟩).2.1 rfl⟩

/-- C4: evaluation of operator>= at two iterators with common base 0 and
cursors 0 and 5: the source compares the left cursor against the right
operand's base instead of its cursor, so it answers true although the left
cursor is strictly below the right one, contradicting operator<= on the
swapped operands. -/
theorem iter_ge_base_bug :
    iterGe ⟨0, 0, true⟩ ⟨0, 5, true⟩ = true ∧
    iterLe ⟨0, 5, true⟩ ⟨0, 0, true⟩ = false ∧
    iterLt ⟨0, 0, true⟩ ⟨0, 5, true⟩ = true := by decide

/-- C5: begin and end compare equal whenever the duration count is zero,
and for a stopwatch with at least one measurement the iterator distance
from end to begin is the measurement count minus one. -/
theorem begin_end_range (sw : Stopwatch) (addr : Int) :
    (size sw = 0 → iterEq (beginIter sw addr) (endIter sw addr) = true) ∧
    (1 ≤ data_size sw →
      iterDist (endIter sw addr) (beginIter sw addr) =
        Except.ok ((data_size sw : Int) - 1)) := by
  constructor
  · intro h
    unfold size at h
    unfold iterEq beginIter endIter
    by_cases he : sw.measurements.isEmpty
    · simp [he]
    · have hne : sw.measurements.length ≠ 0 := by
        simpa [List.isEmpty_iff, List.length_eq_zero] using he
      have hlen : sw.measurements.length = 1 := by
        split at h <;> omega
      simp [he, hlen]
  · intro h
    have hlen : 1 ≤ sw.measurements.length := h
    have hne : sw.measurements.isEmpty = false := by
      cases hm : sw.measurements with
      | nil => rw [hm] at hlen; simp at hlen
      | cons x xs => rfl
    unfold iterDist beginIter endIter data_size
    simp [hne]
    omega

/-- C5 witness: an empty stopwatch has begin equal to end, and two
measurements give an end-to-begin distance of one. -/
theorem begin_end_range_witness :
    iterEq (beginIter ⟨[], SPLIT_MODE⟩ 7) (endIter ⟨[], SPLIT_MODE⟩ 7) =
      true ∧
    iterDist (endIter ⟨[3, 4], SPLIT_MODE⟩ 7)
        (beginIter ⟨[3, 4], SPLIT_MODE⟩ 7) =
      Except.ok ((data_size ⟨[3, 4], SPLIT_MODE⟩ : Int) - 1) :=
  ⟨(begin_end_range ⟨[], SPLIT_MODE⟩ 7).1 (by decide),
   (begin_end_range ⟨[3, 4], SPLIT_MODE⟩ 7).2 (by decide)⟩

/-- C10: when the two base references differ, equality and the orderings
by less-than, at-most and greater-than all answer false, inequality answers
true, and no error is raised, whatever the cursors are. -/
theorem cross_base_compare (a b : SwIterator) (h : a.base ≠ b.base) :
    iterEq a b = false ∧ iterNe a b = true ∧ iterLt a b = false ∧
    iterLe a b = false ∧ iterGt a b = false := by
  have hb : (a.base == b.base) = false := by simpa using h
  refine ⟨?_, ?_, ?_, ?_, ?_⟩ <;>
    simp [iterEq, iterNe, iterLt, iterLe, iterGt, hb, h]

/-- C10 witness: iterators with bases 0 and 2 and equal cursors compare
false under equality and the three orderings, true under inequality. -/
theorem cross_base_compare_witness :
    iterEq ⟨0, 9, true⟩ ⟨2, 9, true⟩ = false ∧
    iterNe ⟨0, 9, true⟩ ⟨2, 9, true⟩ = true ∧
    iterLt ⟨0, 9, true⟩ ⟨2, 9, true⟩ = false ∧
    iterLe ⟨0, 9, true⟩ ⟨2, 9, true⟩ = false ∧
    iterGt ⟨0, 9, true⟩ ⟨2, 9, true⟩ = false :=
  cross_base_compare ⟨0, 9, true⟩ ⟨2, 9, true⟩ (by decide)

/-- C6: merging two stopwatches with strictly sorted measurements yields a
strictly sorted, duplicate-free measurement list whose members are exactly
the union of the members of the two inputs and whose length is at most the
sum of the two input lengths; the in-place merge produces the same list. -/
theorem merge_sorted_union (A B : Stopwatch)
    (hA : A.measurements.Sorted (· < ·))
    (hB : B.measurements.Sorted (· < ·)) :
    (mergeWith A B).measurements.Sorted (· < ·) ∧
    (mergeWith A B).measurements.Nodup ∧
    (∀ x, x ∈ (mergeWith A B).measurements ↔
      x ∈ A.measurements ∨ x ∈ B.measurements) ∧
    (mergeWith A B).measurements.length ≤
      A.measurements.length + B.measurements.length ∧
    (mergeInto A B).measurements = (mergeWith A B).measurements := by
  have hs := sorted_setUnion A.measurements B.measurements hA hB
  exact ⟨hs, hs.nodup, fun x => mem_setUnion x _ _,
    length_setUnion_le _ _, rfl⟩

/-- C6 witness: merging measurements 0, 5 with 3, 5, 9 contains 5 once as
part of a member-union list of length at most five. -/
theorem merge_sorted_union_witness :
    (∀ x, x ∈ (mergeWith ⟨[0, 5], SPLIT_MODE⟩
        ⟨[3, 5, 9], ELAPSE_MODE⟩).measurements ↔
      x ∈ ([0, 5] : List Int) ∨ x ∈ ([3, 5, 9] : List Int)) ∧
    (mergeWith ⟨[0, 5], SPLIT_MODE⟩
        ⟨[3, 5, 9], ELAPSE_MODE⟩).measurements.length ≤ 2 + 3 :=
  ⟨(merge_sorted_union ⟨[0, 5], SPLIT_MODE⟩ ⟨[3, 5, 9], ELAPSE_MODE⟩
      (by decide) (by decide)).2.2.1,
   (merge_sorted_union ⟨[0, 5], SPLIT_MODE⟩ ⟨[3, 5, 9], ELAPSE_MODE⟩
      (by decide) (by decide)).2.2.2.1⟩

/-- C7: for strictly sorted stopwatches, merging B into A and then the
updated A into B leaves both with the same measurement list, which is the
measurement list of the merge of the original A and B. -/
theorem merge_convergence (A B : Stopwatch)
    (hA : A.measurements.Sorted (· < ·))
    (hB : B.measurements.Sorted (· < ·)) :
    (mergeInto B (mergeInto A B)).measurements =
      (mergeInto A B).measurements ∧
    (mergeInto A B).measurements = (mergeWith A B).measurements := by
  have hAB := sorted_setUnion A.measurements B.measurements hA hB
  have hs2 := sorted_setUnion B.measurements
    (setUnion A.measurements B.measurements) hB hAB
  refine ⟨?_, rfl⟩
  apply sorted_lt_eq _ _ hs2 hAB
  intro x
  simp only [mem_setUnion]
  tauto

/-- C7 witness: merging 2, 4, 6 with 1, 4 in both orders converges to a
single list. -/
theorem merge_convergence_witness :
    (mergeInto ⟨[1, 4], ELAPSE_MODE⟩
        (mergeInto ⟨[2, 4, 6], SPLIT_MODE⟩ ⟨[1, 4], ELAPSE_MODE⟩)).measurements =
      (mergeInto ⟨[2, 4, 6], SPLIT_MODE⟩ ⟨[1, 4], ELAPSE_MODE⟩).measurements :=
  (merge_convergence ⟨[2, 4, 6], SPLIT_MODE⟩ ⟨[1, 4], ELAPSE_MODE⟩
    (by decide) (by decide)).1

/-- C8: both merge forms keep the receiver's mode, and the copying merge is
the same pure function of its two arguments as the in-place merge, so
neither argument's state is consumed or changed. -/
theorem merge_mode_frame (A B : Stopwatch) :
    (mergeWith A B).sw_mode = A.sw_mode ∧
    (mergeInto A B).sw_mode = A.sw_mode ∧
    mergeWith A B = mergeInto A B :=
  ⟨rfl, rfl, rfl⟩

end StopwatchModel
